import Mathlib

/-!
Shallow embedding of `src/tmux/create_tmux_sessions.py`.

The script drives the external `tmux` CLI.  We model:
  * the external multiplexer's session table as `TmuxState`
    (sessions, each with a list of windows and an active-window index);
  * every tmux invocation the script issues as a `TCmd`, with
    `tmuxStep` giving each command's effect on the table;
  * Python string helpers (`str.split`, `str.strip`, `int(...)`) as
    executable functions over `List Char`;
  * the script's functions `check_session`, `create_server_session`,
    `list_sessions`, `attach_session` and `main`, each returning the
    resulting table, the trace of tmux commands issued, and (for `main`)
    an exit code where `none` models abnormal termination by an
    unhandled Python exception.
-/

namespace TmuxScript

/-- A tmux window: its name and its number of panes. -/
structure Window where
  name : String
  panes : Nat
deriving DecidableEq, Repr

/-- A tmux session: name, windows in creation order, and the index of the
currently selected (active) window. -/
structure Session where
  name : String
  windows : List Window
  active : Nat
deriving DecidableEq, Repr

/-- The external multiplexer's session table, in creation order. -/
structure TmuxState where
  sessions : List Session
deriving DecidableEq, Repr

/-- One external `tmux` invocation, mirroring the argument vectors built in
the script.  `selectWindow`'s `session:window` target string is carried as
its two components. -/
inductive TCmd where
  | hasSession (session_name : String)
  | newSession (session_name : String)
  | renameWindow (session_name : String) (new_name : String)
  | sendKeys (target : String) (keys : String)
  | splitWindow (session_name : String)
  | newWindow (session_name : String) (window_name : String)
  | selectWindow (session_name : String) (window_name : String)
  | listSessions
  | listSessionsFmt
  | listWindows (session_name : String)
  | attachSession (session_name : String)
  | switchClient (session_name : String)
deriving DecidableEq, Repr

/-- Does a session with this name exist in the table?  (`tmux has-session`.) -/
def sessionExists (st : TmuxState) (session_name : String) : Bool :=
  st.sessions.any (fun s => s.name = session_name)

/-- Apply `f` to the session(s) named `n` (tmux session names are unique,
so at most one entry matches). -/
def modifySession (st : TmuxState) (n : String) (f : Session → Session) : TmuxState :=
  ⟨st.sessions.map (fun s => if s.name = n then f s else s)⟩

/-- `tmux rename-window` on the session's active window. -/
def Session.renameActive (s : Session) (new_name : String) : Session :=
  match s.windows.get? s.active with
  | some w => { s with windows := s.windows.set s.active { w with name := new_name } }
  | none => s

/-- `tmux split-window` on the session's active window: one more pane. -/
def Session.splitActive (s : Session) : Session :=
  match s.windows.get? s.active with
  | some w => { s with windows := s.windows.set s.active { w with panes := w.panes + 1 } }
  | none => s

/-- `tmux new-window -n name`: append a one-pane window and select it. -/
def Session.addWindow (s : Session) (window_name : String) : Session :=
  { s with windows := s.windows ++ [⟨window_name, 1⟩], active := s.windows.length }

/-- `tmux select-window -t session:name`: select the first window with that
name, if any. -/
def Session.selectWin (s : Session) (window_name : String) : Session :=
  match s.windows.findIdx? (fun w => w.name = window_name) with
  | some i => { s with active := i }
  | none => s

/-- Effect of one tmux command on the session table.  `new-session -d`
creates a detached session with a single one-pane window (default name
"0"); a duplicate name is rejected by tmux, leaving the table unchanged.
Queries, key sending, and attach/switch do not change the table. -/
def tmuxStep (st : TmuxState) : TCmd → TmuxState
  | .newSession n =>
      if sessionExists st n then st else ⟨st.sessions ++ [⟨n, [⟨"0", 1⟩], 0⟩]⟩
  | .renameWindow t n => modifySession st t (fun s => s.renameActive n)
  | .splitWindow t => modifySession st t Session.splitActive
  | .newWindow t n => modifySession st t (fun s => s.addWindow n)
  | .selectWindow t n => modifySession st t (fun s => s.selectWin n)
  | _ => st

/-- `SSH_KEY = os.path.expanduser("~/.ssh/id_ed25519")` (the expanded path,
kept symbolic as the literal). -/
def SSH_KEY : String := "~/.ssh/id_ed25519"

/-- The interactive SSH command sent into a pane. -/
def sshCommand (server : String) : String :=
  "ssh -t -i " ++ SSH_KEY ++ " " ++ server

/-- The SSH command running the remote monitoring tool. -/
def sshHtopCommand (server : String) : String :=
  "ssh -t -i " ++ SSH_KEY ++ " " ++ server ++ " 'htop'"

/-- Exit code of `tmux has-session -t session_name`: 0 when the session
exists, non-zero (1) otherwise. -/
def has_session_returncode (st : TmuxState) (session_name : String) : Int :=
  if sessionExists st session_name then 0 else 1

/-- Line 29 of the script: `return result.returncode == 0`. -/
def returncode_is_zero (returncode : Int) : Bool :=
  returncode == 0

/-- `check_session`: run `tmux has-session` and test its exit code for 0. -/
def check_session (st : TmuxState) (session_name : String) : Bool :=
  returncode_is_zero (has_session_returncode st session_name)

/-- `create_server_session`: if the session exists, return 0 after the
existence check alone; otherwise issue the fixed creation sequence.
Result: new table, trace of tmux commands issued, and the Python return
value (`some 0` = "already exists", `none` = Python `None`). -/
def create_server_session (st : TmuxState) (session_name server : String) :
    TmuxState × List TCmd × Option Nat :=
  if check_session st session_name then
    (st, [TCmd.hasSession session_name], some 0)
  else
    let st1 := tmuxStep st (TCmd.newSession session_name)
    let st2 := tmuxStep st1 (TCmd.renameWindow session_name "main")
    let st3 := tmuxStep st2 (TCmd.sendKeys session_name (sshCommand server))
    let st4 := tmuxStep st3 (TCmd.splitWindow session_name)
    let st5 := tmuxStep st4 (TCmd.sendKeys session_name (sshCommand server))
    let st6 := tmuxStep st5 (TCmd.newWindow session_name "monitoring")
    let st7 := tmuxStep st6 (TCmd.sendKeys (session_name ++ ":monitoring") (sshHtopCommand server))
    let st8 := tmuxStep st7 (TCmd.selectWindow session_name "main")
    (st8,
     [TCmd.hasSession session_name,
      TCmd.newSession session_name,
      TCmd.renameWindow session_name "main",
      TCmd.sendKeys session_name (sshCommand server),
      TCmd.splitWindow session_name,
      TCmd.sendKeys session_name (sshCommand server),
      TCmd.newWindow session_name "monitoring",
      TCmd.sendKeys (session_name ++ ":monitoring") (sshHtopCommand server),
      TCmd.selectWindow session_name "main"],
     none)

/-- The fully configured session `create_server_session` builds for a fresh
name: windows `main` (2 panes) and `monitoring` (1 pane), `main` selected. -/
def cfgSession (session_name : String) : Session :=
  ⟨session_name, [⟨"main", 2⟩, ⟨"monitoring", 1⟩], 0⟩

/-- Python `str.split(sep)` on a character list (no maxsplit). -/
def splitChar (sep : Char) : List Char → List (List Char)
  | [] => [[]]
  | c :: cs =>
      if c = sep then [] :: splitChar sep cs
      else
        match splitChar sep cs with
        | [] => [[c]]
        | w :: ws => (c :: w) :: ws

/-- Python `server.split('=')` as a list of strings. -/
def pySplit (sep : Char) (s : String) : List String :=
  (splitChar sep s.data).map String.mk

/-- `server.split('=')[0]` — the session name (index 0 always exists). -/
def nameOf (server : String) : String :=
  (pySplit '=' server).headD ""

/-- `server.split('=')[1]` — `none` models the `IndexError` raised when the
entry contains no `=`. -/
def addrOf (server : String) : Option String :=
  (pySplit '=' server)[1]?

/-- Python `str.isspace` characters (the ones `str.strip` removes):
space, tab, newline, carriage return, vertical tab, form feed. -/
def pyIsSpace (c : Char) : Bool :=
  [' ', '\t', '\n', '\r', '\x0b', '\x0c'].contains c

/-- Python `str.strip()` on a character list. -/
def stripChars (l : List Char) : List Char :=
  ((l.dropWhile pyIsSpace).reverse.dropWhile pyIsSpace).reverse

/-- `s.count('\n')`. -/
def countNL (l : List Char) : Nat :=
  l.count '\n'

/-- Python `int(s)`: strip whitespace, optional sign, decimal digits;
`none` models the `ValueError` raised on anything else. -/
def pyInt (s : String) : Option Int :=
  match stripChars s.data with
  | [] => none
  | c :: rest =>
      let signed : Bool × List Char :=
        if c = '-' then (true, rest)
        else if c = '+' then (false, rest)
        else (false, c :: rest)
      match signed with
      | (neg, digits) =>
          if digits ≠ [] ∧ digits.all Char.isDigit then
            let n : Nat := digits.foldl (fun acc d => acc * 10 + (d.toNat - 48)) 0
            some (if neg then -(n : Int) else (n : Int))
          else none

/-- One line of `tmux list-sessions` output for a session (name, then a
colon and summary text; the summary always contains non-space characters). -/
def sessionLine (s : Session) : List Char :=
  s.name.data ++ (": " ++ toString s.windows.length ++ " windows").data

/-- Captured stdout of `tmux list-sessions`: one line per session, each
terminated by a newline. -/
def listSessionsOut (st : TmuxState) : List Char :=
  (st.sessions.map (fun s => sessionLine s ++ ['\n'])).flatten

/-- Line 152 f. of the script:
`int(run(["tmux","list-sessions"],...).stdout.strip().count('\n')) + 1`. -/
def session_count (st : TmuxState) : Nat :=
  countNL (stripChars (listSessionsOut st)) + 1

/-- Captured stdout of `tmux list-sessions -F '#{session_name}'`. -/
def listSessionsFmtOut (st : TmuxState) : List Char :=
  (st.sessions.map (fun s => s.name.data ++ ['\n'])).flatten

/-- Line 157 f.: `... .stdout.strip().split('\n')` — the menu entries. -/
def menuSessions (st : TmuxState) : List String :=
  (splitChar '\n' (stripChars (listSessionsFmtOut st))).map String.mk

/-- `list_sessions()`: prints the session list, then for each configured
server checks existence and, when present, lists its windows.  The table
is not changed; this is its command trace. -/
def list_sessions_cmds (st : TmuxState) (servers : List String) : List TCmd :=
  TCmd.listSessions ::
    (servers.map (fun server =>
      let session_name := nameOf server
      TCmd.hasSession session_name ::
        (if check_session st session_name then [TCmd.listWindows session_name] else []))).flatten

/-- `attach_session`: Python's `not os.environ.get("TMUX")` is false exactly
when the variable is set to a non-empty string. -/
def envTruthy : Option String → Bool
  | none => false
  | some s => !(s == "")

/-- `attach_session(session_name)`: attach when not inside tmux, switch
client when inside; trace of the single command issued. -/
def attach_session (tmuxEnv : Option String) (session_name : String) : List TCmd :=
  if !(envTruthy tmuxEnv) then [TCmd.attachSession session_name]
  else [TCmd.switchClient session_name]

/-- The creation loop of `main` (lines 142–145): for each entry, parse
`name` and `address` around `=` and call `create_server_session`.  The
boolean is `true` when the loop crashed with an `IndexError` (entry
without `=`); the table and trace are those at the moment of the crash. -/
def createLoop (st : TmuxState) : List String → TmuxState × List TCmd × Bool
  | [] => (st, [], false)
  | server :: rest =>
      let session_name := nameOf server
      match addrOf server with
      | none => (st, [], true)
      | some server_address =>
          match create_server_session st session_name server_address with
          | (st1, cmds, _) =>
              match createLoop st1 rest with
              | (st2, cmds2, crashed) => (st2, cmds ++ cmds2, crashed)

/-- Result of a driver phase: exit code (`none` = abnormal termination),
commands issued, whether the numbered menu was printed, whether a line of
interactive input was read. -/
structure PhaseResult where
  exitCode : Option Nat
  cmds : List TCmd
  menuPrinted : Bool
  inputRead : Bool
deriving DecidableEq, Repr

/-- Lines 151–167 of `main`: compute `session_count`; when it exceeds 1,
print the menu, read and parse one input line, and attach on an in-range
selection (out of range: silently nothing); otherwise attach to
`SERVERS[0].split('=')[0]` directly (`none` when `SERVERS` is empty and
`SERVERS[0]` raises). -/
def selectPhase (st : TmuxState) (servers : List String) (tmuxEnv : Option String)
    (input : String) : PhaseResult :=
  if session_count st > 1 then
    let sessions := menuSessions st
    match pyInt input with
    | none => ⟨none, [TCmd.listSessions, TCmd.listSessionsFmt], true, true⟩
    | some k =>
        let selected : Int := k - 1
        if 0 ≤ selected ∧ selected < (sessions.length : Int) then
          ⟨some 0,
           [TCmd.listSessions, TCmd.listSessionsFmt] ++
             attach_session tmuxEnv (sessions.getD selected.toNat ""),
           true, true⟩
        else
          ⟨some 0, [TCmd.listSessions, TCmd.listSessionsFmt], true, true⟩
  else
    match servers.head? with
    | none => ⟨none, [TCmd.listSessions], false, false⟩
    | some server => ⟨some 0, TCmd.listSessions :: attach_session tmuxEnv (nameOf server), false, false⟩

/-- Outcome of running `main`: exit code (`some 1` = tool missing, `some 0`
= normal completion, `none` = unhandled exception), final session table,
trace of tmux commands, and the interaction flags. -/
structure MainResult where
  exitCode : Option Nat
  state : TmuxState
  cmds : List TCmd
  menuPrinted : Bool
  inputRead : Bool
deriving DecidableEq, Repr

/-- `main()`: check the tool (`command -v tmux`, modelled by `toolPresent`),
run the creation loop over the configured servers, show the session status,
then select and attach.  Parameters: tool availability, the `SERVERS`
list, the `TMUX` environment variable, the one interactive input line, and
the multiplexer's initial session table. -/
def main (toolPresent : Bool) (servers : List String) (tmuxEnv : Option String)
    (input : String) (st0 : TmuxState) : MainResult :=
  if toolPresent = false then
    ⟨some 1, st0, [], false, false⟩
  else
    match createLoop st0 servers with
    | (st1, cmds1, true) => ⟨none, st1, cmds1, false, false⟩
    | (st1, cmds1, false) =>
        let listCmds := list_sessions_cmds st1 servers
        let r := selectPhase st1 servers tmuxEnv input
        ⟨r.exitCode, st1, cmds1 ++ listCmds ++ r.cmds, r.menuPrinted, r.inputRead⟩

/-- Is a command an attach or switch-client invocation? -/
def isAttachOrSwitch : TCmd → Bool
  | .attachSession _ => true
  | .switchClient _ => true
  | _ => false

/-- The actual configured `SERVERS` list of the script. -/
def SERVERS : List String := ["moodle=root@moodle.talent-factory.xyz"]

/-! ## Basic lemmas about the tmux model -/

lemma tmuxStep_sendKeys (st : TmuxState) (t k : String) :
    tmuxStep st (TCmd.sendKeys t k) = st := rfl

lemma tmuxStep_newSession (st : TmuxState) (n : String) :
    tmuxStep st (TCmd.newSession n) =
      if sessionExists st n then st else ⟨st.sessions ++ [⟨n, [⟨"0", 1⟩], 0⟩]⟩ := rfl

lemma tmuxStep_renameWindow (st : TmuxState) (t m : String) :
    tmuxStep st (TCmd.renameWindow t m) = modifySession st t (fun s => s.renameActive m) := rfl

lemma tmuxStep_splitWindow (st : TmuxState) (t : String) :
    tmuxStep st (TCmd.splitWindow t) = modifySession st t Session.splitActive := rfl

lemma tmuxStep_newWindow (st : TmuxState) (t m : String) :
    tmuxStep st (TCmd.newWindow t m) = modifySession st t (fun s => s.addWindow m) := rfl

lemma tmuxStep_selectWindow (st : TmuxState) (t m : String) :
    tmuxStep st (TCmd.selectWindow t m) = modifySession st t (fun s => s.selectWin m) := rfl

lemma check_session_eq_sessionExists (st : TmuxState) (n : String) :
    check_session st n = sessionExists st n := by
  unfold check_session returncode_is_zero has_session_returncode
  cases hse : sessionExists st n <;> simp [hse]

lemma sessionExists_iff_mem (st : TmuxState) (n : String) :
    sessionExists st n = true ↔ n ∈ st.sessions.map Session.name := by
  simp [sessionExists, List.any_eq_true, decide_eq_true_eq, List.mem_map]

lemma sessionExists_false_names {st : TmuxState} {n : String}
    (h : sessionExists st n = false) : ∀ s ∈ st.sessions, s.name ≠ n := by
  intro s hs
  have : ¬ sessionExists st n = true := by simp [h]
  simp only [sessionExists, List.any_eq_true] at this
  intro hname
  exact this ⟨s, hs, by simp [hname]⟩

lemma modifySession_append (l : List Session) (x : Session) (n : String)
    (f : Session → Session) (h : ∀ s ∈ l, s.name ≠ n) (hx : x.name = n) :
    modifySession ⟨l ++ [x]⟩ n f = ⟨l ++ [f x]⟩ := by
  have hxx : (if x.name = n then f x else x) = f x := by rw [hx]; simp
  have hl : l.map (fun s => if s.name = n then f s else s) = l := by
    conv_rhs => rw [← List.map_id l]
    exact List.map_congr_left (fun s hs => by simp [h s hs])
  simp [modifySession, hl, hxx]

/-- A fresh name: `create_server_session` appends the fully configured
session and issues the nine-command creation sequence. -/
lemma create_server_session_fresh (st : TmuxState) (n a : String)
    (h : sessionExists st n = false) :
    create_server_session st n a =
      (⟨st.sessions ++ [cfgSession n]⟩,
       [TCmd.hasSession n, TCmd.newSession n, TCmd.renameWindow n "main",
        TCmd.sendKeys n (sshCommand a), TCmd.splitWindow n,
        TCmd.sendKeys n (sshCommand a), TCmd.newWindow n "monitoring",
        TCmd.sendKeys (n ++ ":monitoring") (sshHtopCommand a),
        TCmd.selectWindow n "main"],
       none) := by
  have hnames := sessionExists_false_names h
  have hc : check_session st n = false := by
    rw [check_session_eq_sessionExists, h]
  have e1 : tmuxStep st (TCmd.newSession n) = ⟨st.sessions ++ [⟨n, [⟨"0", 1⟩], 0⟩]⟩ := by
    rw [tmuxStep_newSession, h]; simp
  have e2 : tmuxStep ⟨st.sessions ++ [⟨n, [⟨"0", 1⟩], 0⟩]⟩ (TCmd.renameWindow n "main") =
      ⟨st.sessions ++ [⟨n, [⟨"main", 1⟩], 0⟩]⟩ := by
    rw [tmuxStep_renameWindow, modifySession_append _ _ _ _ hnames rfl]
    rfl
  have e3 : tmuxStep ⟨st.sessions ++ [⟨n, [⟨"main", 1⟩], 0⟩]⟩ (TCmd.splitWindow n) =
      ⟨st.sessions ++ [⟨n, [⟨"main", 2⟩], 0⟩]⟩ := by
    rw [tmuxStep_splitWindow, modifySession_append _ _ _ _ hnames rfl]
    rfl
  have e4 : tmuxStep ⟨st.sessions ++ [⟨n, [⟨"main", 2⟩], 0⟩]⟩ (TCmd.newWindow n "monitoring") =
      ⟨st.sessions ++ [⟨n, [⟨"main", 2⟩, ⟨"monitoring", 1⟩], 1⟩]⟩ := by
    rw [tmuxStep_newWindow, modifySession_append _ _ _ _ hnames rfl]
    rfl
  have e5 : tmuxStep ⟨st.sessions ++ [⟨n, [⟨"main", 2⟩, ⟨"monitoring", 1⟩], 1⟩]⟩
      (TCmd.selectWindow n "main") = ⟨st.sessions ++ [cfgSession n]⟩ := by
    rw [tmuxStep_selectWindow, modifySession_append _ _ _ _ hnames rfl]
    rfl
  simp only [create_server_session, hc, Bool.false_eq_true, if_false,
    tmuxStep_sendKeys, e1, e2, e3, e4, e5]

/-- An existing name: only the existence check runs, the table is
untouched, and the Python return value is 0. -/
lemma create_server_session_exists (st : TmuxState) (n a : String)
    (h : check_session st n = true) :
    create_server_session st n a = (st, [TCmd.hasSession n], some 0) := by
  simp [create_server_session, h]

/-- `create_server_session` never renames sessions and never removes one:
its effect on the list of session names is at most appending the new name. -/
lemma create_server_session_names (st : TmuxState) (n a : String) :
    (create_server_session st n a).1.sessions.map Session.name =
      st.sessions.map Session.name ++ (if check_session st n then [] else [n]) := by
  by_cases hc : check_session st n = true
  · rw [create_server_session_exists st n a hc]; simp [hc]
  · have h : sessionExists st n = false := by
      rw [check_session_eq_sessionExists] at hc; simpa using hc
    rw [create_server_session_fresh st n a h]
    simp [cfgSession, hc]

lemma sessionExists_append (l1 l2 : List Session) (n : String) :
    sessionExists ⟨l1 ++ l2⟩ n = (sessionExists ⟨l1⟩ n || sessionExists ⟨l2⟩ n) := by
  simp [sessionExists, List.any_append]

/-! ## The creation loop -/

lemma createLoop_nil (st : TmuxState) : createLoop st [] = (st, [], false) := rfl

lemma createLoop_cons_none (st : TmuxState) (v : String) (rest : List String)
    (h : addrOf v = none) : createLoop st (v :: rest) = (st, [], true) := by
  simp [createLoop, h]

lemma createLoop_cons_some (st : TmuxState) (v : String) (rest : List String)
    (a : String) (h : addrOf v = some a) :
    createLoop st (v :: rest) =
      ((createLoop (create_server_session st (nameOf v) a).1 rest).1,
       (create_server_session st (nameOf v) a).2.1 ++
         (createLoop (create_server_session st (nameOf v) a).1 rest).2.1,
       (createLoop (create_server_session st (nameOf v) a).1 rest).2.2) := by
  simp only [createLoop, h]

/-- Under well-formed entries the loop never crashes. -/
lemma createLoop_nocrash (servers : List String) :
    ∀ st : TmuxState, (∀ v ∈ servers, (addrOf v).isSome) →
      (createLoop st servers).2.2 = false := by
  induction servers with
  | nil => intro st _; rfl
  | cons v rest ih =>
    intro st hwf
    obtain ⟨a, ha⟩ := Option.isSome_iff_exists.mp (hwf v (by simp))
    rw [createLoop_cons_some st v rest a ha]
    exact ih _ (fun w hw => hwf w (by simp [hw]))

/-- The loop only ever appends sessions; every session name of the
resulting table is either an initial name or the name of some entry. -/
lemma createLoop_names (servers : List String) :
    ∀ st : TmuxState, ∃ extra : List String,
      (createLoop st servers).1.sessions.map Session.name =
        st.sessions.map Session.name ++ extra ∧
      ∀ n ∈ extra, n ∈ servers.map nameOf := by
  induction servers with
  | nil => intro st; exact ⟨[], by simp [createLoop_nil], by simp⟩
  | cons v rest ih =>
    intro st
    cases ha : addrOf v with
    | none => exact ⟨[], by simp [createLoop_cons_none st v rest ha], by simp⟩
    | some a =>
      obtain ⟨extra, hextra, hsub⟩ := ih (create_server_session st (nameOf v) a).1
      refine ⟨(if check_session st (nameOf v) then [] else [nameOf v]) ++ extra, ?_, ?_⟩
      · rw [createLoop_cons_some st v rest a ha, hextra,
          create_server_session_names, List.append_assoc]
      · intro n hn
        rcases List.mem_append.mp hn with h1 | h2
        · split_ifs at h1 with hcs
          · simp at h1
          · simp at h1; simp [h1]
        · simp only [List.map_cons, List.mem_cons]
          exact Or.inr (hsub n h2)

lemma createLoop_exists_mono {st : TmuxState} {servers : List String} {n : String}
    (h : sessionExists st n = true) :
    sessionExists (createLoop st servers).1 n = true := by
  obtain ⟨extra, hextra, -⟩ := createLoop_names servers st
  rw [sessionExists_iff_mem] at h ⊢
  rw [hextra]
  exact List.mem_append_left _ h

lemma create_server_session_exists_mono {st : TmuxState} {n a m : String}
    (h : sessionExists st m = true) :
    sessionExists (create_server_session st n a).1 m = true := by
  rw [sessionExists_iff_mem] at h ⊢
  rw [create_server_session_names]
  exact List.mem_append_left _ h

lemma create_server_session_self_exists (st : TmuxState) (n a : String) :
    sessionExists (create_server_session st n a).1 n = true := by
  by_cases hc : check_session st n = true
  · rw [create_server_session_exists st n a hc]
    rw [← check_session_eq_sessionExists]; exact hc
  · rw [sessionExists_iff_mem, create_server_session_names]
    simp [hc]

/-- After a crash-free run of the loop, every configured name exists. -/
lemma createLoop_after_exists (servers : List String) :
    ∀ st : TmuxState, (∀ v ∈ servers, (addrOf v).isSome) →
      ∀ v ∈ servers, sessionExists (createLoop st servers).1 (nameOf v) = true := by
  induction servers with
  | nil => intro st _ v hv; simp at hv
  | cons w rest ih =>
    intro st hwf v hv
    obtain ⟨a, ha⟩ := Option.isSome_iff_exists.mp (hwf w (by simp))
    rw [createLoop_cons_some st w rest a ha]
    rcases List.mem_cons.mp hv with rfl | hv2
    · exact createLoop_exists_mono (create_server_session_self_exists st (nameOf v) a)
    · exact ih _ (fun u hu => hwf u (by simp [hu])) v hv2

/-- When every configured session already exists, the loop issues only the
existence checks and leaves the table untouched. -/
lemma createLoop_all_exist (servers : List String) :
    ∀ st : TmuxState, (∀ v ∈ servers, (addrOf v).isSome) →
      (∀ v ∈ servers, sessionExists st (nameOf v) = true) →
      createLoop st servers =
        (st, servers.map (fun v => TCmd.hasSession (nameOf v)), false) := by
  induction servers with
  | nil => intro st _ _; rfl
  | cons v rest ih =>
    intro st hwf hex
    obtain ⟨a, ha⟩ := Option.isSome_iff_exists.mp (hwf v (by simp))
    have hc : check_session st (nameOf v) = true := by
      rw [check_session_eq_sessionExists]; exact hex v (by simp)
    rw [createLoop_cons_some st v rest a ha,
      create_server_session_exists st (nameOf v) a hc,
      ih st (fun u hu => hwf u (by simp [hu])) (fun u hu => hex u (by simp [hu]))]
    simp

/-- Main characterisation: well-formed entries with pairwise-distinct,
fresh names make the loop append one configured session per entry. -/
lemma createLoop_fresh_distinct (servers : List String) :
    ∀ st : TmuxState, (∀ v ∈ servers, (addrOf v).isSome) →
      (servers.map nameOf).Nodup →
      (∀ v ∈ servers, sessionExists st (nameOf v) = false) →
      (createLoop st servers).1 =
        ⟨st.sessions ++ servers.map (fun v => cfgSession (nameOf v))⟩ := by
  induction servers with
  | nil => intro st _ _ _; simp [createLoop_nil]
  | cons v rest ih =>
    intro st hwf hdist hfresh
    obtain ⟨a, ha⟩ := Option.isSome_iff_exists.mp (hwf v (by simp))
    have hv : sessionExists st (nameOf v) = false := hfresh v (by simp)
    have hstep := create_server_session_fresh st (nameOf v) a hv
    have hdist2 : (rest.map nameOf).Nodup := (List.nodup_cons.mp (by simpa using hdist)).2
    have hnotmem : nameOf v ∉ rest.map nameOf :=
      (List.nodup_cons.mp (by simpa using hdist)).1
    have hfresh2 : ∀ w ∈ rest,
        sessionExists ⟨st.sessions ++ [cfgSession (nameOf v)]⟩ (nameOf w) = false := by
      intro w hw
      rw [sessionExists_append]
      have h1 : sessionExists st (nameOf w) = false := hfresh w (by simp [hw])
      have h2 : nameOf w ≠ nameOf v := by
        intro he
        exact hnotmem (he ▸ List.mem_map_of_mem nameOf hw)
      have hl : sessionExists (⟨[cfgSession (nameOf v)]⟩ : TmuxState) (nameOf w) = false := by
        simp only [sessionExists, cfgSession, List.any_cons, List.any_nil, Bool.or_false]
        simpa using fun he => h2 he.symm
      rw [h1, hl]
      rfl
    rw [createLoop_cons_some st v rest a ha, hstep]
    simp only
    rw [ih ⟨st.sessions ++ [cfgSession (nameOf v)]⟩
      (fun u hu => hwf u (by simp [hu])) hdist2 hfresh2]
    simp

/-- No command the creation phase issues is an attach or switch. -/
lemma create_server_session_cmds_noattach (st : TmuxState) (n a : String) :
    ∀ c ∈ (create_server_session st n a).2.1, isAttachOrSwitch c = false := by
  intro c hc
  by_cases hcs : check_session st n = true
  · rw [create_server_session_exists st n a hcs] at hc
    simp at hc
    subst hc; rfl
  · have h : sessionExists st n = false := by
      rw [check_session_eq_sessionExists] at hcs; simpa using hcs
    rw [create_server_session_fresh st n a h] at hc
    simp at hc
    rcases hc with rfl | rfl | rfl | rfl | rfl | rfl | rfl | rfl | rfl <;> rfl

lemma createLoop_cmds_noattach (servers : List String) :
    ∀ st : TmuxState, ∀ c ∈ (createLoop st servers).2.1, isAttachOrSwitch c = false := by
  induction servers with
  | nil => intro st c hc; simp [createLoop_nil] at hc
  | cons v rest ih =>
    intro st c hc
    cases ha : addrOf v with
    | none => rw [createLoop_cons_none st v rest ha] at hc; simp at hc
    | some a =>
      rw [createLoop_cons_some st v rest a ha] at hc
      simp only at hc
      rcases List.mem_append.mp hc with h1 | h2
      · exact create_server_session_cmds_noattach st (nameOf v) a c h1
      · exact ih _ c h2

lemma list_sessions_cmds_noattach (st : TmuxState) (servers : List String) :
    ∀ c ∈ list_sessions_cmds st servers, isAttachOrSwitch c = false := by
  intro c hc
  simp only [list_sessions_cmds, List.mem_cons] at hc
  rcases hc with rfl | hc
  · rfl
  · rw [List.mem_flatten] at hc
    obtain ⟨l, hl, hcl⟩ := hc
    rw [List.mem_map] at hl
    obtain ⟨v, -, rfl⟩ := hl
    rcases List.mem_cons.mp hcl with rfl | hc2
    · rfl
    · split_ifs at hc2 <;> simp at hc2
      subst hc2; rfl

lemma filter_eq_nil_of_noattach {l : List TCmd}
    (h : ∀ c ∈ l, isAttachOrSwitch c = false) : l.filter isAttachOrSwitch = [] := by
  induction l with
  | nil => rfl
  | cons c t ih =>
    rw [List.filter_cons, h c (by simp)]
    simp only [Bool.false_eq_true, if_false]
    exact ih (fun d hd => h d (by simp [hd]))

lemma attach_session_filter (tmuxEnv : Option String) (n : String) :
    (attach_session tmuxEnv n).filter isAttachOrSwitch = attach_session tmuxEnv n := by
  unfold attach_session
  split_ifs <;> rfl

/-! ## Counting newlines in captured `list-sessions` output -/

lemma digitChar_not_space (m : Nat) : pyIsSpace (Nat.digitChar m) = false := by
  match m with
  | 0 => decide
  | 1 => decide
  | 2 => decide
  | 3 => decide
  | 4 => decide
  | 5 => decide
  | 6 => decide
  | 7 => decide
  | 8 => decide
  | 9 => decide
  | 10 => decide
  | 11 => decide
  | 12 => decide
  | 13 => decide
  | 14 => decide
  | 15 => decide
  | (n + 16) =>
    have he : Nat.digitChar (n + 16) = '*' := by
      have g0 : ¬ n + 16 = 0 := by omega
      have g1 : ¬ n + 16 = 1 := by omega
      have g2 : ¬ n + 16 = 2 := by omega
      have g3 : ¬ n + 16 = 3 := by omega
      have g4 : ¬ n + 16 = 4 := by omega
      have g5 : ¬ n + 16 = 5 := by omega
      have g6 : ¬ n + 16 = 6 := by omega
      have g7 : ¬ n + 16 = 7 := by omega
      have g8 : ¬ n + 16 = 8 := by omega
      have g9 : ¬ n + 16 = 9 := by omega
      have g10 : ¬ n + 16 = 10 := by omega
      have g11 : ¬ n + 16 = 11 := by omega
      have g12 : ¬ n + 16 = 12 := by omega
      have g13 : ¬ n + 16 = 13 := by omega
      have g14 : ¬ n + 16 = 14 := by omega
      have g15 : ¬ n + 16 = 15 := by omega
      simp [Nat.digitChar, g0, g1, g2, g3, g4, g5, g6, g7,
        g8, g9, g10, g11, g12, g13, g14, g15]
    rw [he]
    decide

lemma toDigitsCore_not_space (b : Nat) :
    ∀ (f n : Nat) (ds : List Char), (∀ c ∈ ds, pyIsSpace c = false) →
      ∀ c ∈ Nat.toDigitsCore b f n ds, pyIsSpace c = false := by
  intro f
  induction f with
  | zero =>
    intro n ds hds c hc
    rw [show Nat.toDigitsCore b 0 n ds = ds from rfl] at hc
    exact hds c hc
  | succ f ih =>
    intro n ds hds c hc
    simp only [Nat.toDigitsCore] at hc
    split_ifs at hc
    · rcases List.mem_cons.mp hc with rfl | hmem
      · exact digitChar_not_space _
      · exact hds c hmem
    · refine ih (n / b) (Nat.digitChar (n % b) :: ds) ?_ c hc
      intro d hd
      rcases List.mem_cons.mp hd with rfl | hm
      · exact digitChar_not_space _
      · exact hds d hm

lemma natRepr_not_space (n : Nat) : ∀ c ∈ (Nat.repr n).data, pyIsSpace c = false := by
  intro c hc
  have he : (Nat.repr n).data = Nat.toDigitsCore 10 (n + 1) n [] := rfl
  rw [he] at hc
  exact toDigitsCore_not_space 10 (n + 1) n [] (by simp) c hc

lemma countNL_eq_zero {l : List Char} (h : '\n' ∉ l) : countNL l = 0 := by
  unfold countNL
  exact List.count_eq_zero.mpr h

lemma countNL_dropWhile_eq_zero {l : List Char} (p : Char → Bool) (h : '\n' ∉ l) :
    countNL (l.dropWhile p) = 0 := by
  unfold countNL
  rw [List.count_eq_zero]
  intro hc
  exact h ((List.dropWhile_sublist p).subset hc)

lemma dropWhile_ne_nil_of_exists {p : Char → Bool} {l : List Char}
    (h : ∃ c ∈ l, p c = false) : l.dropWhile p ≠ [] := by
  intro he
  obtain ⟨c, hc, hpc⟩ := h
  have := List.dropWhile_eq_nil_iff.mp he c hc
  simp [hpc] at this

lemma dropWhile_append_of_ne_nil {p : Char → Bool} {l1 : List Char} (l2 : List Char)
    (h : l1.dropWhile p ≠ []) : (l1 ++ l2).dropWhile p = l1.dropWhile p ++ l2 := by
  rw [List.dropWhile_append, if_neg (by simpa [List.isEmpty_iff] using h)]

lemma dropWhile_head_false {p : Char → Bool} :
    ∀ {l : List Char} {c : Char} {t : List Char}, l.dropWhile p = c :: t → p c = false := by
  intro l
  induction l with
  | nil => intro c t h; simp [List.dropWhile] at h
  | cons a l ih =>
    intro c t h
    rw [List.dropWhile_cons] at h
    split_ifs at h with hpa
    · exact ih h
    · cases h
      simpa using hpa

/-- Dropping trailing whitespace from newline-terminated, newline-free,
non-blank lines removes exactly the final newline. -/
lemma count_dropWhile_rev_flatten :
    ∀ lines : List (List Char), lines ≠ [] →
      (∀ l ∈ lines, '\n' ∉ l ∧ ∃ c ∈ l, pyIsSpace c = false) →
      countNL (((lines.map (fun l => l ++ ['\n'])).flatten).reverse.dropWhile pyIsSpace) =
        lines.length - 1 := by
  intro lines
  induction lines with
  | nil => intro h; exact absurd rfl h
  | cons l rest ih =>
    intro _ hgood
    rcases rest with _ | ⟨r0, rs⟩
    · obtain ⟨hnl, -⟩ := hgood l (by simp)
      simp only [List.map_cons, List.map_nil, List.flatten_cons, List.flatten_nil,
        List.append_nil, List.reverse_append, List.length_cons, List.length_nil,
        List.reverse_singleton, List.singleton_append]
      rw [List.dropWhile_cons_of_pos (by decide : pyIsSpace '\n' = true)]
      rw [countNL_dropWhile_eq_zero pyIsSpace (by simpa using hnl)]
    · obtain ⟨hnl, -⟩ := hgood l (by simp)
      obtain ⟨-, c0, hc0, hpc0⟩ := hgood r0 (by simp)
      have hmemF : c0 ∈ (((r0 :: rs).map (fun l => l ++ ['\n'])).flatten).reverse := by
        rw [List.mem_reverse, List.mem_flatten]
        exact ⟨r0 ++ ['\n'], by simp, by simp [hc0]⟩
      have hFne : (((r0 :: rs).map (fun l => l ++ ['\n'])).flatten).reverse.dropWhile
          pyIsSpace ≠ [] :=
        dropWhile_ne_nil_of_exists ⟨c0, hmemF, hpc0⟩
      have hsplit :
          (((l :: r0 :: rs).map (fun t => t ++ ['\n'])).flatten).reverse =
            (((r0 :: rs).map (fun t => t ++ ['\n'])).flatten).reverse ++
              ('\n' :: l.reverse) := by
        simp [List.reverse_append]
      rw [hsplit, dropWhile_append_of_ne_nil _ hFne]
      unfold countNL
      rw [List.count_append]
      have h1 := ih (by simp) (fun t ht => hgood t (by simp [ht]))
      unfold countNL at h1
      rw [h1]
      have h2 : ('\n' :: l.reverse).count '\n' = 1 := by
        rw [List.count_cons]
        have : l.reverse.count '\n' = 0 :=
          List.count_eq_zero.mpr (by simpa using hnl)
        simp [this]
      rw [h2]
      simp only [List.length_cons]
      omega

lemma countNL_stripChars (l : List Char) :
    countNL (stripChars l) = countNL ((l.dropWhile pyIsSpace).reverse.dropWhile pyIsSpace) := by
  unfold stripChars countNL
  rw [List.count_reverse]

/-- With newline-free session names, the script's counting expression
computes `max 1 (number of sessions)`. -/
lemma session_count_eq (st : TmuxState)
    (h : ∀ s ∈ st.sessions, '\n' ∉ s.name.data) :
    session_count st = max 1 st.sessions.length := by
  rcases hses : st.sessions with _ | ⟨s0, ss⟩
  · unfold session_count listSessionsOut stripChars
    rw [hses]
    simp [countNL, List.dropWhile]
  · have hgood : ∀ L ∈ (s0 :: ss).map sessionLine,
        '\n' ∉ L ∧ ∃ c ∈ L, pyIsSpace c = false := by
      intro L hL
      rw [List.mem_map] at hL
      obtain ⟨s, hs, rfl⟩ := hL
      have hname : '\n' ∉ s.name.data := h s (hses ▸ hs)
      constructor
      · unfold sessionLine
        intro hmem
        rcases List.mem_append.mp hmem with h1 | h2
        · exact hname h1
        · rw [String.data_append, String.data_append] at h2
          rcases List.mem_append.mp h2 with h3 | h4
          · rcases List.mem_append.mp h3 with h5 | h6
            · simp at h5
            · have := natRepr_not_space s.windows.length '\n' h6
              exact absurd this (by decide)
          · exact absurd h4 (by decide)
      · refine ⟨':', ?_, by decide⟩
        unfold sessionLine
        refine List.mem_append_right _ ?_
        rw [String.data_append, String.data_append]
        refine List.mem_append_left _ (List.mem_append_left _ ?_)
        simp
    have hL0ne : (sessionLine s0).dropWhile pyIsSpace ≠ [] := by
      obtain ⟨-, hex⟩ := hgood (sessionLine s0) (by simp)
      exact dropWhile_ne_nil_of_exists hex
    have hx : listSessionsOut st =
        sessionLine s0 ++ (['\n'] ++ ((ss.map sessionLine).map (fun t => t ++ ['\n'])).flatten) := by
      unfold listSessionsOut
      rw [hses]
      simp only [List.map_cons, List.flatten_cons, List.append_assoc,
        List.singleton_append]
      rw [List.map_map]
      rfl
    have hdw : (listSessionsOut st).dropWhile pyIsSpace =
        (((sessionLine s0).dropWhile pyIsSpace :: ss.map sessionLine).map
          (fun t => t ++ ['\n'])).flatten := by
      rw [hx, dropWhile_append_of_ne_nil _ hL0ne]
      simp
    have hgood2 : ∀ L ∈ (sessionLine s0).dropWhile pyIsSpace :: ss.map sessionLine,
        '\n' ∉ L ∧ ∃ c ∈ L, pyIsSpace c = false := by
      intro L hL
      rcases List.mem_cons.mp hL with rfl | hmem
      · obtain ⟨hnl, -⟩ := hgood (sessionLine s0) (by simp)
        constructor
        · intro hm
          exact hnl ((List.dropWhile_sublist pyIsSpace).subset hm)
        · rcases he : (sessionLine s0).dropWhile pyIsSpace with _ | ⟨c, t⟩
          · exact absurd he hL0ne
          · exact ⟨c, by simp, dropWhile_head_false he⟩
      · exact hgood L (by simp [hmem])
    unfold session_count
    rw [countNL_stripChars, hdw,
      count_dropWhile_rev_flatten _ (by simp) hgood2]
    simp

/-! ## Python `split` and the interactive menu list -/

lemma splitChar_ne_nil (sep : Char) : ∀ l : List Char, splitChar sep l ≠ [] := by
  intro l
  induction l with
  | nil => simp [splitChar]
  | cons a l ih =>
    unfold splitChar
    split_ifs
    · simp
    · rcases he : splitChar sep l with _ | ⟨w, ws⟩
      · simp
      · simp

lemma splitChar_chars (sep : Char) :
    ∀ l : List Char, ∀ w ∈ splitChar sep l, ∀ c ∈ w, c ∈ l := by
  intro l
  induction l with
  | nil =>
    intro w hw c hc
    simp [splitChar] at hw
    subst hw
    simp at hc
  | cons a l ih =>
    intro w hw c hc
    unfold splitChar at hw
    split_ifs at hw with ha
    · rcases List.mem_cons.mp hw with rfl | hmem
      · simp at hc
      · exact List.mem_cons_of_mem a (ih w hmem c hc)
    · rcases he : splitChar sep l with _ | ⟨w0, ws⟩
      · exact absurd he (splitChar_ne_nil sep l)
      · rw [he] at hw
        rcases List.mem_cons.mp hw with rfl | hmem
        · rcases List.mem_cons.mp hc with rfl | hc0
          · simp
          · exact List.mem_cons_of_mem a (ih w0 (he ▸ List.mem_cons_self w0 ws) c hc0)
        · exact List.mem_cons_of_mem a (ih w (he ▸ List.mem_cons_of_mem w0 hmem) c hc)

lemma splitChar_no_sep (sep : Char) :
    ∀ l : List Char, sep ∉ l → splitChar sep l = [l] := by
  intro l
  induction l with
  | nil => intro _; rfl
  | cons a l ih =>
    intro h
    unfold splitChar
    rw [if_neg (by simp at h; exact fun he => h.1 he.symm)]
    rw [ih (fun hm => h (List.mem_cons_of_mem a hm))]

lemma splitChar_sep_append (sep : Char) :
    ∀ a : List Char, sep ∉ a → ∀ r : List Char,
      splitChar sep (a ++ sep :: r) = a :: splitChar sep r := by
  intro a
  induction a with
  | nil =>
    intro _ r
    simp [splitChar]
  | cons x t ih =>
    intro h r
    have hx : x ≠ sep := by simp at h; exact fun he => h.1 he.symm
    have hrec := ih (fun hm => h (List.mem_cons_of_mem x hm)) r
    simp only [List.cons_append]
    conv_lhs => unfold splitChar
    rw [if_neg hx, hrec]

lemma nameOf_chars (v : String) : ∀ c ∈ (nameOf v).data, c ∈ v.data := by
  intro c hc
  unfold nameOf pySplit at hc
  rcases he : splitChar '=' v.data with _ | ⟨w, ws⟩
  · exact absurd he (splitChar_ne_nil '=' v.data)
  · rw [he] at hc
    simp only [List.map_cons, List.headD_cons] at hc
    exact splitChar_chars '=' v.data w (he ▸ List.mem_cons_self w ws) c hc

lemma splitChar_of_mem (sep : Char) :
    ∀ l : List Char, sep ∈ l → ∃ w ws, splitChar sep l = w :: ws ∧ ws ≠ [] := by
  intro l
  induction l with
  | nil => intro h; simp at h
  | cons a t ih =>
    intro h
    unfold splitChar
    split_ifs with ha
    · exact ⟨[], splitChar sep t, rfl, splitChar_ne_nil sep t⟩
    · have hmem : sep ∈ t := by
        rcases List.mem_cons.mp h with rfl | hm
        · exact absurd rfl ha
        · exact hm
      obtain ⟨w, ws, hsp, hws⟩ := ih hmem
      rw [hsp]
      exact ⟨a :: w, ws, rfl, hws⟩

/-- Entries containing `=` parse without an `IndexError`. -/
lemma addrOf_isSome_of_mem {v : String} (h : '=' ∈ v.data) : (addrOf v).isSome = true := by
  unfold addrOf pySplit
  obtain ⟨w, ws, hsp, hws⟩ := splitChar_of_mem '=' v.data h
  rcases ws with _ | ⟨w2, ws2⟩
  · exact absurd rfl hws
  · rw [hsp]
    simp

/-- Joined with newline separators but without the trailing newline. -/
def intercalateNL : List (List Char) → List Char
  | [] => []
  | [n] => n
  | n :: rest => n ++ '\n' :: intercalateNL rest

lemma intercalateNL_cons2 (n m : List Char) (t : List (List Char)) :
    intercalateNL (n :: m :: t) = n ++ '\n' :: intercalateNL (m :: t) := rfl

lemma flatten_map_nl :
    ∀ names : List (List Char), names ≠ [] →
      (names.map (fun l => l ++ ['\n'])).flatten = intercalateNL names ++ ['\n'] := by
  intro names
  induction names with
  | nil => intro h; exact absurd rfl h
  | cons n rest ih =>
    intro _
    rcases rest with _ | ⟨m, t⟩
    · simp [intercalateNL]
    · rw [List.map_cons, List.flatten_cons, ih (by simp), intercalateNL_cons2]
      simp

lemma intercalateNL_cons_head (c : Char) (t0 : List Char) (rest : List (List Char)) :
    ∃ tt, intercalateNL ((c :: t0) :: rest) = c :: tt := by
  rcases rest with _ | ⟨m, t⟩
  · exact ⟨t0, rfl⟩
  · exact ⟨t0 ++ '\n' :: intercalateNL (m :: t), rfl⟩

lemma intercalateNL_rev_head :
    ∀ names : List (List Char), names ≠ [] →
      (∀ n ∈ names, n ≠ [] ∧ ∀ c ∈ n, pyIsSpace c = false) →
      ∃ c t, (intercalateNL names).reverse = c :: t ∧ pyIsSpace c = false := by
  intro names
  induction names with
  | nil => intro h; exact absurd rfl h
  | cons n rest ih =>
    intro _ hgood
    rcases rest with _ | ⟨m, t⟩
    · obtain ⟨hne, hns⟩ := hgood n (by simp)
      rcases he : n.reverse with _ | ⟨c, tr⟩
      · exact absurd (by simpa using he) hne
      · refine ⟨c, tr, by simp [intercalateNL, he], ?_⟩
        exact hns c (by rw [← List.mem_reverse, he]; simp)
    · obtain ⟨c, tr, hrev, hc⟩ := ih (by simp) (fun u hu => hgood u (by simp [hu]))
      refine ⟨c, tr ++ '\n' :: n.reverse, ?_, hc⟩
      rw [intercalateNL_cons2]
      rw [List.reverse_append, List.reverse_cons, hrev]
      simp

lemma strip_flatten_eq_intercalate (names : List (List Char)) (hne : names ≠ [])
    (hgood : ∀ n ∈ names, n ≠ [] ∧ ∀ c ∈ n, pyIsSpace c = false) :
    stripChars ((names.map (fun l => l ++ ['\n'])).flatten) = intercalateNL names := by
  rcases names with _ | ⟨n0, rest⟩
  · exact absurd rfl hne
  · obtain ⟨hne0, hns0⟩ := hgood n0 (by simp)
    rcases hn0 : n0 with _ | ⟨c0, t0⟩
    · exact absurd hn0 hne0
    · have hc0 : pyIsSpace c0 = false := hns0 c0 (by simp [hn0])
      obtain ⟨tt, htt⟩ := intercalateNL_cons_head c0 t0 rest
      rw [flatten_map_nl _ (by simp)]
      unfold stripChars
      have h1 : (intercalateNL ((c0 :: t0) :: rest) ++ ['\n']).dropWhile pyIsSpace =
          intercalateNL ((c0 :: t0) :: rest) ++ ['\n'] := by
        rw [htt, List.cons_append, List.dropWhile_cons_of_neg (by simp [hc0])]
      rw [h1]
      obtain ⟨c, tr, hrev, hc⟩ :=
        intercalateNL_rev_head ((c0 :: t0) :: rest) (by simp) (by rw [← hn0]; exact hgood)
      rw [List.reverse_append, List.reverse_singleton, List.singleton_append,
        List.dropWhile_cons_of_pos (by decide : pyIsSpace '\n' = true),
        hrev, List.dropWhile_cons_of_neg (by simp [hc]), ← hrev]
      simp

lemma splitChar_intercalateNL :
    ∀ names : List (List Char), names ≠ [] → (∀ n ∈ names, '\n' ∉ n) →
      splitChar '\n' (intercalateNL names) = names := by
  intro names
  induction names with
  | nil => intro h; exact absurd rfl h
  | cons n rest ih =>
    intro _ hnl
    rcases rest with _ | ⟨m, t⟩
    · exact splitChar_no_sep '\n' n (hnl n (by simp))
    · rw [intercalateNL_cons2, splitChar_sep_append '\n' n (hnl n (by simp)),
        ih (by simp) (fun u hu => hnl u (by simp [hu]))]

/-- With non-blank, whitespace-free session names, the menu list is
exactly the list of session names in table order. -/
lemma menuSessions_eq (st : TmuxState) (hne : st.sessions ≠ [])
    (hgood : ∀ s ∈ st.sessions, s.name.data ≠ [] ∧ ∀ c ∈ s.name.data, pyIsSpace c = false) :
    menuSessions st = st.sessions.map Session.name := by
  have h1 : listSessionsFmtOut st =
      ((st.sessions.map (fun s => s.name.data)).map (fun l => l ++ ['\n'])).flatten := by
    unfold listSessionsFmtOut
    rw [List.map_map]
    rfl
  have hgood2 : ∀ n ∈ st.sessions.map (fun s => s.name.data),
      n ≠ [] ∧ ∀ c ∈ n, pyIsSpace c = false := by
    intro n hn
    rw [List.mem_map] at hn
    obtain ⟨s, hs, rfl⟩ := hn
    exact hgood s hs
  have hnl : ∀ n ∈ st.sessions.map (fun s => s.name.data), '\n' ∉ n := by
    intro n hn hmem
    exact absurd ((hgood2 n hn).2 '\n' hmem) (by decide)
  unfold menuSessions
  rw [h1, strip_flatten_eq_intercalate _ (by simpa using hne) hgood2,
    splitChar_intercalateNL _ (by simpa using hne) hnl, List.map_map]
  rfl

/-! ## Driver-level helper lemmas -/

/-- When the creation loop does not crash, `main` is the loop, the status
listing, and the selection phase in sequence. -/
lemma main_eq_of_nocrash (st0 : TmuxState) (servers : List String)
    (tmuxEnv : Option String) (input : String)
    (h : (createLoop st0 servers).2.2 = false) :
    main true servers tmuxEnv input st0 =
      ⟨(selectPhase (createLoop st0 servers).1 servers tmuxEnv input).exitCode,
       (createLoop st0 servers).1,
       (createLoop st0 servers).2.1 ++
         list_sessions_cmds (createLoop st0 servers).1 servers ++
         (selectPhase (createLoop st0 servers).1 servers tmuxEnv input).cmds,
       (selectPhase (createLoop st0 servers).1 servers tmuxEnv input).menuPrinted,
       (selectPhase (createLoop st0 servers).1 servers tmuxEnv input).inputRead⟩ := by
  unfold main
  rw [if_neg (by simp)]
  rcases hcl : createLoop st0 servers with ⟨st1, cmds1, crashed⟩
  rw [hcl] at h
  simp only at h
  subst h
  simp

/-- Absent a crash, the selection phase always finishes with exit code 0
when the server list is non-empty and the input line parses. -/
lemma selectPhase_exitCode_zero (st : TmuxState) (servers : List String)
    (tmuxEnv : Option String) (input : String)
    (hne : servers ≠ []) (hparse : (pyInt input).isSome = true) :
    (selectPhase st servers tmuxEnv input).exitCode = some 0 := by
  unfold selectPhase
  split_ifs with hc
  · obtain ⟨k, hk⟩ := Option.isSome_iff_exists.mp hparse
    rw [hk]
    dsimp only
    split_ifs <;> rfl
  · rcases servers with _ | ⟨v, rest⟩
    · exact absurd rfl hne
    · rfl

/-! ## Claim theorems -/

/-- C3: the existence check returns true exactly when the external
`has-session` query exits with code zero, which in turn happens exactly
when the name is present in the session table; every non-zero exit code
(whatever its value) maps to false. -/
theorem claim_C3 :
    (∀ (st : TmuxState) (session_name : String),
        check_session st session_name = true ↔
          has_session_returncode st session_name = 0) ∧
    (∀ (st : TmuxState) (session_name : String),
        check_session st session_name = true ↔ sessionExists st session_name = true) ∧
    (∀ returncode : Int, returncode_is_zero returncode = true ↔ returncode = 0) := by
  refine ⟨?_, ?_, ?_⟩
  · intro st n
    unfold check_session returncode_is_zero
    simp
  · intro st n
    rw [check_session_eq_sessionExists]
  · intro rc
    unfold returncode_is_zero
    simp

/-- C3 witness at a concrete table and at a concrete non-zero code. -/
theorem claim_C3_witness :
    (check_session ⟨[cfgSession "moodle"]⟩ "moodle" = true ↔
      sessionExists ⟨[cfgSession "moodle"]⟩ "moodle" = true) ∧
    (returncode_is_zero 1 = true ↔ (1 : Int) = 0) :=
  ⟨claim_C3.2.1 ⟨[cfgSession "moodle"]⟩ "moodle", claim_C3.2.2 1⟩

/-- C4: for an existing session name, `create_server_session` leaves the
table untouched, issues no command beyond the existence check, and
returns the "already exists" signal 0. -/
theorem claim_C4 (st : TmuxState) (session_name server : String)
    (h : check_session st session_name = true) :
    create_server_session st session_name server =
      (st, [TCmd.hasSession session_name], some 0) :=
  create_server_session_exists st session_name server h

/-- C4 witness at a concrete table containing the session. -/
theorem claim_C4_witness :
    check_session ⟨[cfgSession "db"]⟩ "db" = true ∧
    create_server_session ⟨[cfgSession "db"]⟩ "db" "root@db.example.com" =
      (⟨[cfgSession "db"]⟩, [TCmd.hasSession "db"], some 0) :=
  ⟨by decide, claim_C4 ⟨[cfgSession "db"]⟩ "db" "root@db.example.com" (by decide)⟩

/-- C6: `attach_session` issues exactly one command; it is `attach-session`
exactly when the `TMUX` environment indicator is unset or empty, and
`switch-client` exactly when it is set to a non-empty value. -/
theorem claim_C6 (tmuxEnv : Option String) (session_name : String) :
    (attach_session tmuxEnv session_name).length = 1 ∧
    (attach_session tmuxEnv session_name = [TCmd.attachSession session_name] ↔
      envTruthy tmuxEnv = false) ∧
    (attach_session tmuxEnv session_name = [TCmd.switchClient session_name] ↔
      envTruthy tmuxEnv = true) := by
  unfold attach_session
  cases he : envTruthy tmuxEnv <;> simp

/-- C6 witness: inside a tmux session (`TMUX` set non-empty). -/
theorem claim_C6_witness :
    (attach_session (some "/tmp/tmux-0/default,42,0") "db").length = 1 ∧
    (attach_session (some "/tmp/tmux-0/default,42,0") "db" = [TCmd.attachSession "db"] ↔
      envTruthy (some "/tmp/tmux-0/default,42,0") = false) ∧
    (attach_session (some "/tmp/tmux-0/default,42,0") "db" = [TCmd.switchClient "db"] ↔
      envTruthy (some "/tmp/tmux-0/default,42,0") = true) :=
  claim_C6 (some "/tmp/tmux-0/default,42,0") "db"

/-- C9: the computed session count is never below 1, and with an empty
session table the selection phase takes the single-session branch and
attaches using the first configured server's name, without prompting. -/
theorem claim_C9 :
    (∀ st : TmuxState, 1 ≤ session_count st) ∧
    (∀ (st : TmuxState) (servers : List String) (tmuxEnv : Option String)
        (input : String) (v0 : String),
        st.sessions = [] → servers.head? = some v0 →
        (selectPhase st servers tmuxEnv input).menuPrinted = false ∧
        (selectPhase st servers tmuxEnv input).inputRead = false ∧
        (selectPhase st servers tmuxEnv input).cmds =
          TCmd.listSessions :: attach_session tmuxEnv (nameOf v0)) := by
  constructor
  · intro st
    unfold session_count
    omega
  · intro st servers tmuxEnv input v0 hempty hhead
    have hcount : session_count st = 1 := by
      unfold session_count listSessionsOut stripChars countNL
      rw [hempty]
      simp [List.dropWhile]
    unfold selectPhase
    rw [hcount, if_neg (by omega), hhead]
    exact ⟨rfl, rfl, rfl⟩

/-- C9 witness: empty table, actual configured server list. -/
theorem claim_C9_witness :
    1 ≤ session_count ⟨[]⟩ ∧
    (selectPhase ⟨[]⟩ SERVERS none "").menuPrinted = false ∧
    (selectPhase ⟨[]⟩ SERVERS none "").cmds =
      TCmd.listSessions ::
        attach_session none (nameOf "moodle=root@moodle.talent-factory.xyz") :=
  ⟨claim_C9.1 ⟨[]⟩,
   (claim_C9.2 ⟨[]⟩ SERVERS none "" "moodle=root@moodle.talent-factory.xyz" rfl rfl).1,
   (claim_C9.2 ⟨[]⟩ SERVERS none "" "moodle=root@moodle.talent-factory.xyz" rfl rfl).2.2⟩

/-- C10: entry parsing takes the session name from before the first `=`
and the address from strictly between the first and second `=`; an
address containing `=` is therefore truncated rather than kept whole. -/
theorem claim_C10 (a b c : List Char) (ha : '=' ∉ a) (hb : '=' ∉ b) :
    nameOf (String.mk (a ++ '=' :: (b ++ '=' :: c))) = String.mk a ∧
    addrOf (String.mk (a ++ '=' :: (b ++ '=' :: c))) = some (String.mk b) ∧
    String.mk b ≠ String.mk (b ++ '=' :: c) := by
  have hsp : splitChar '=' (a ++ '=' :: (b ++ '=' :: c)) = a :: b :: splitChar '=' c := by
    rw [splitChar_sep_append '=' a ha, splitChar_sep_append '=' b hb]
  have hdata : (String.mk (a ++ '=' :: (b ++ '=' :: c))).data =
      a ++ '=' :: (b ++ '=' :: c) := rfl
  refine ⟨?_, ?_, ?_⟩
  · unfold nameOf pySplit
    rw [hdata, hsp]
    rfl
  · unfold addrOf pySplit
    rw [hdata, hsp]
    simp
  · intro he
    have h2 : b = b ++ '=' :: c := congrArg String.data he
    have h3 := congrArg List.length h2
    simp at h3

/-- C10 witness at the entry `db=root@host=x`. -/
theorem claim_C10_witness :
    nameOf (String.mk (['d', 'b'] ++ '=' ::
        (['r', 'o', 'o', 't'] ++ '=' :: ['x']))) = String.mk ['d', 'b'] ∧
    addrOf (String.mk (['d', 'b'] ++ '=' ::
        (['r', 'o', 'o', 't'] ++ '=' :: ['x']))) = some (String.mk ['r', 'o', 'o', 't']) :=
  ⟨(claim_C10 ['d', 'b'] ['r', 'o', 'o', 't'] ['x'] (by decide) (by decide)).1,
   (claim_C10 ['d', 'b'] ['r', 'o', 'o', 't'] ['x'] (by decide) (by decide)).2.1⟩

/-- C7: a missing multiplexer tool makes the driver exit with status 1,
issuing no tmux command at all (so no creation, listing, or attach) and
leaving the table unchanged; with the tool present and no other failure
(well-formed non-empty server list, parseable input if prompted) the
driver completes with status 0. -/
theorem claim_C7 :
    (∀ (servers : List String) (tmuxEnv : Option String) (input : String)
        (st0 : TmuxState),
        main false servers tmuxEnv input st0 = ⟨some 1, st0, [], false, false⟩) ∧
    (∀ (servers : List String) (tmuxEnv : Option String) (input : String)
        (st0 : TmuxState),
        (∀ v ∈ servers, '=' ∈ v.data) → servers ≠ [] → (pyInt input).isSome = true →
        (main true servers tmuxEnv input st0).exitCode = some 0) := by
  constructor
  · intro servers tmuxEnv input st0
    rfl
  · intro servers tmuxEnv input st0 hwf hne hparse
    have hwf2 : ∀ v ∈ servers, (addrOf v).isSome = true :=
      fun v hv => addrOf_isSome_of_mem (hwf v hv)
    have hnc := createLoop_nocrash servers st0 hwf2
    rw [main_eq_of_nocrash st0 servers tmuxEnv input hnc]
    exact selectPhase_exitCode_zero _ servers tmuxEnv input hne hparse

/-- C7 witness: missing tool at one input, present tool at another. -/
theorem claim_C7_witness :
    main false ["a=x"] none "1" ⟨[]⟩ = ⟨some 1, ⟨[]⟩, [], false, false⟩ ∧
    (main true ["a=x"] none "1" ⟨[]⟩).exitCode = some 0 :=
  ⟨claim_C7.1 ["a=x"] none "1" ⟨[]⟩,
   claim_C7.2 ["a=x"] none "1" ⟨[]⟩ (by decide) (by decide) (by decide)⟩

/-- C8: with more than one session in the table after the creation phase
and an unparseable input line, the driver terminates abnormally
(unhandled `ValueError`), having printed the menu and issued no attach or
switch-client command. -/
theorem claim_C8 (st0 : TmuxState) (servers : List String) (tmuxEnv : Option String)
    (input : String)
    (hwf : ∀ v ∈ servers, '=' ∈ v.data)
    (hnl : ∀ s ∈ (createLoop st0 servers).1.sessions, '\n' ∉ s.name.data)
    (hlen : 1 < (createLoop st0 servers).1.sessions.length)
    (hparse : pyInt input = none) :
    (main true servers tmuxEnv input st0).exitCode = none ∧
    (main true servers tmuxEnv input st0).cmds.filter isAttachOrSwitch = [] ∧
    (main true servers tmuxEnv input st0).menuPrinted = true ∧
    (main true servers tmuxEnv input st0).inputRead = true := by
  have hwf2 : ∀ v ∈ servers, (addrOf v).isSome = true :=
    fun v hv => addrOf_isSome_of_mem (hwf v hv)
  have hnc := createLoop_nocrash servers st0 hwf2
  have hcount : session_count (createLoop st0 servers).1 > 1 := by
    rw [session_count_eq _ hnl]
    omega
  have hphase : selectPhase (createLoop st0 servers).1 servers tmuxEnv input =
      ⟨none, [TCmd.listSessions, TCmd.listSessionsFmt], true, true⟩ := by
    unfold selectPhase
    rw [if_pos hcount, hparse]
  have hmain := main_eq_of_nocrash st0 servers tmuxEnv input hnc
  rw [hmain, hphase]
  refine ⟨rfl, ?_, rfl, rfl⟩
  rw [List.filter_append, List.filter_append,
    filter_eq_nil_of_noattach (createLoop_cmds_noattach servers st0),
    filter_eq_nil_of_noattach (list_sessions_cmds_noattach _ servers)]
  rfl

/-- C8 witness: two freshly created sessions, input `"abc"`. -/
theorem claim_C8_witness :
    (main true ["a=x", "b=y"] none "abc" ⟨[]⟩).exitCode = none ∧
    (main true ["a=x", "b=y"] none "abc" ⟨[]⟩).cmds.filter isAttachOrSwitch = [] ∧
    (main true ["a=x", "b=y"] none "abc" ⟨[]⟩).menuPrinted = true ∧
    (main true ["a=x", "b=y"] none "abc" ⟨[]⟩).inputRead = true :=
  claim_C8 ⟨[]⟩ ["a=x", "b=y"] none "abc"
    (by decide) (by decide) (by decide) (by decide)

/-- C5: with more than one session in the table after the creation phase,
an in-range selection `k` makes the driver attach/switch to the k-th
session in the listed (table) order and exit normally, while an
out-of-range integer makes it issue no attach or switch at all, still
exiting normally with no error and no further prompt. -/
theorem claim_C5 (st0 : TmuxState) (servers : List String) (tmuxEnv : Option String)
    (input : String) (k : Int)
    (hwf : ∀ v ∈ servers, '=' ∈ v.data)
    (hgood : ∀ s ∈ (createLoop st0 servers).1.sessions,
      s.name.data ≠ [] ∧ ∀ c ∈ s.name.data, pyIsSpace c = false)
    (hlen : 1 < (createLoop st0 servers).1.sessions.length)
    (hparse : pyInt input = some k) :
    (1 ≤ k → k ≤ ((createLoop st0 servers).1.sessions.length : Int) →
      (main true servers tmuxEnv input st0).cmds.filter isAttachOrSwitch =
        attach_session tmuxEnv
          (((createLoop st0 servers).1.sessions.map Session.name).getD (k - 1).toNat "") ∧
      (main true servers tmuxEnv input st0).exitCode = some 0) ∧
    ((k < 1 ∨ ((createLoop st0 servers).1.sessions.length : Int) < k) →
      (main true servers tmuxEnv input st0).cmds.filter isAttachOrSwitch = [] ∧
      (main true servers tmuxEnv input st0).exitCode = some 0 ∧
      (main true servers tmuxEnv input st0).menuPrinted = true ∧
      (main true servers tmuxEnv input st0).inputRead = true) := by
  have hwf2 : ∀ v ∈ servers, (addrOf v).isSome = true :=
    fun v hv => addrOf_isSome_of_mem (hwf v hv)
  have hnc := createLoop_nocrash servers st0 hwf2
  have hnl : ∀ s ∈ (createLoop st0 servers).1.sessions, '\n' ∉ s.name.data := by
    intro s hs hmem
    exact absurd ((hgood s hs).2 '\n' hmem) (by decide)
  have hcount : session_count (createLoop st0 servers).1 > 1 := by
    rw [session_count_eq _ hnl]
    omega
  have hmenu : menuSessions (createLoop st0 servers).1 =
      (createLoop st0 servers).1.sessions.map Session.name :=
    menuSessions_eq _ (by
      intro he
      rw [he] at hlen
      simp at hlen) hgood
  have hmain := main_eq_of_nocrash st0 servers tmuxEnv input hnc
  have hfilter1 := filter_eq_nil_of_noattach (createLoop_cmds_noattach servers st0)
  have hfilter2 :=
    filter_eq_nil_of_noattach (list_sessions_cmds_noattach (createLoop st0 servers).1 servers)
  constructor
  · intro hk1 hk2
    have hphase : selectPhase (createLoop st0 servers).1 servers tmuxEnv input =
        ⟨some 0,
         [TCmd.listSessions, TCmd.listSessionsFmt] ++
           attach_session tmuxEnv
             ((menuSessions (createLoop st0 servers).1).getD (k - 1).toNat ""),
         true, true⟩ := by
      unfold selectPhase
      rw [if_pos hcount, hparse]
      dsimp only
      rw [if_pos]
      rw [hmenu, List.length_map]
      exact ⟨by omega, by omega⟩
    rw [hmain, hphase, hmenu]
    refine ⟨?_, rfl⟩
    rw [List.filter_append, List.filter_append, hfilter1, hfilter2,
      List.filter_append, attach_session_filter]
    rfl
  · intro hk
    have hphase : selectPhase (createLoop st0 servers).1 servers tmuxEnv input =
        ⟨some 0, [TCmd.listSessions, TCmd.listSessionsFmt], true, true⟩ := by
      unfold selectPhase
      rw [if_pos hcount, hparse]
      dsimp only
      rw [if_neg]
      rw [hmenu, List.length_map]
      rintro ⟨h1, h2⟩
      rcases hk with h3 | h3 <;> omega
    rw [hmain, hphase]
    refine ⟨?_, rfl, rfl, rfl⟩
    rw [List.filter_append, List.filter_append, hfilter1, hfilter2]
    rfl

/-- C5 witness: two freshly created sessions, selection `2` attaches to
the second; hypotheses discharged at the same concrete inputs. -/
theorem claim_C5_witness :
    (main true ["a=x", "b=y"] none "2" ⟨[]⟩).cmds.filter isAttachOrSwitch =
      attach_session none
        (((createLoop ⟨[]⟩ ["a=x", "b=y"]).1.sessions.map Session.name).getD
          ((2 : Int) - 1).toNat "") ∧
    (main true ["a=x", "b=y"] none "2" ⟨[]⟩).exitCode = some 0 :=
  (claim_C5 ⟨[]⟩ ["a=x", "b=y"] none "2" 2
    (by decide) (by decide) (by decide) (by decide)).1
    (by decide) (by decide)

/-- C2: whenever exactly one session exists after the creation phase, the
driver neither prints the menu nor reads input, exits normally, and the
only attach/switch command it issues targets that sole session. -/
theorem claim_C2 (st0 : TmuxState) (servers : List String) (tmuxEnv : Option String)
    (input : String)
    (hne : servers ≠ [])
    (hwf : ∀ v ∈ servers, '=' ∈ v.data)
    (hnl0 : ∀ s ∈ st0.sessions, '\n' ∉ s.name.data)
    (hnlv : ∀ v ∈ servers, '\n' ∉ v.data)
    (hone : (createLoop st0 servers).1.sessions.length = 1) :
    (main true servers tmuxEnv input st0).menuPrinted = false ∧
    (main true servers tmuxEnv input st0).inputRead = false ∧
    (main true servers tmuxEnv input st0).exitCode = some 0 ∧
    ∃ s : Session, (createLoop st0 servers).1.sessions = [s] ∧
      (main true servers tmuxEnv input st0).cmds.filter isAttachOrSwitch =
        attach_session tmuxEnv s.name := by
  have hwf2 : ∀ v ∈ servers, (addrOf v).isSome = true :=
    fun v hv => addrOf_isSome_of_mem (hwf v hv)
  have hnc := createLoop_nocrash servers st0 hwf2
  have hnl1 : ∀ s ∈ (createLoop st0 servers).1.sessions, '\n' ∉ s.name.data := by
    intro s hs hmem
    obtain ⟨extra, hextra, hsub⟩ := createLoop_names servers st0
    have hsname : s.name ∈ (createLoop st0 servers).1.sessions.map Session.name :=
      List.mem_map_of_mem _ hs
    rw [hextra] at hsname
    rcases List.mem_append.mp hsname with h1 | h2
    · obtain ⟨t, ht, hte⟩ := List.mem_map.mp h1
      rw [← hte] at hmem
      exact hnl0 t ht hmem
    · obtain ⟨v, hv, hve⟩ := List.mem_map.mp (hsub _ h2)
      have hcv : '\n' ∈ v.data := nameOf_chars v '\n' (by rw [hve]; exact hmem)
      exact hnlv v hv hcv
  have hcount : session_count (createLoop st0 servers).1 = 1 := by
    rw [session_count_eq _ hnl1, hone]
    simp
  rcases hsv : servers with _ | ⟨v0, rest⟩
  · exact absurd hsv hne
  · subst hsv
    have hphase : selectPhase (createLoop st0 (v0 :: rest)).1 (v0 :: rest) tmuxEnv input =
        ⟨some 0, TCmd.listSessions :: attach_session tmuxEnv (nameOf v0), false, false⟩ := by
      unfold selectPhase
      rw [hcount, if_neg (by omega)]
      rfl
    have hex1 : sessionExists (createLoop st0 (v0 :: rest)).1 (nameOf v0) = true :=
      createLoop_after_exists (v0 :: rest) st0 hwf2 v0 (by simp)
    rcases hs1 : (createLoop st0 (v0 :: rest)).1.sessions with _ | ⟨s, rest2⟩
    · rw [hs1] at hone
      simp at hone
    · have hrest2 : rest2 = [] := by
        rw [hs1] at hone
        simpa using hone
      subst hrest2
      have hsname : s.name = nameOf v0 := by
        rw [sessionExists_iff_mem, hs1] at hex1
        simp at hex1
        exact hex1.symm
      have hmain := main_eq_of_nocrash st0 (v0 :: rest) tmuxEnv input hnc
      rw [hmain, hphase]
      refine ⟨rfl, rfl, rfl, s, rfl, ?_⟩
      rw [List.filter_append, List.filter_append,
        filter_eq_nil_of_noattach (createLoop_cmds_noattach (v0 :: rest) st0),
        filter_eq_nil_of_noattach (list_sessions_cmds_noattach _ (v0 :: rest)),
        hsname]
      show (TCmd.listSessions :: attach_session tmuxEnv (nameOf v0)).filter
          isAttachOrSwitch = attach_session tmuxEnv (nameOf v0)
      rw [List.filter_cons_of_neg (by decide : ¬ isAttachOrSwitch TCmd.listSessions = true),
        attach_session_filter]

/-- C2 witness: the actual configured list against an empty table. -/
theorem claim_C2_witness :
    (main true SERVERS none "" ⟨[]⟩).menuPrinted = false ∧
    (main true SERVERS none "" ⟨[]⟩).inputRead = false ∧
    (main true SERVERS none "" ⟨[]⟩).exitCode = some 0 ∧
    ∃ s : Session, (createLoop ⟨[]⟩ SERVERS).1.sessions = [s] ∧
      (main true SERVERS none "" ⟨[]⟩).cmds.filter isAttachOrSwitch =
        attach_session none s.name :=
  claim_C2 ⟨[]⟩ SERVERS none "" (by decide) (by decide) (by decide) (by decide) (by decide)

/-- C1 as stated is false: its precondition allows duplicate configured
names (and pre-existing unrelated sessions); with the two-entry list
`["a=x", "a=y"]` and an empty table the driver creates only one session,
not two. -/
theorem claim_C1_counterexample :
    (main true ["a=x", "a=y"] none "1" ⟨[]⟩).state.sessions.length ≠
      ["a=x", "a=y"].length := by
  decide

/-- C1 (amended): for every well-formed server list (each entry contains
`=`) with pairwise-distinct session names, none of which pre-exists in
the table, the driver leaves the pre-existing sessions unchanged and adds
exactly one session per entry, each with exactly the two windows `main`
(2 panes) and `monitoring` (1 pane) and with `main` selected. -/
theorem claim_C1_amended (servers : List String) (tmuxEnv : Option String)
    (input : String) (st0 : TmuxState)
    (hwf : ∀ v ∈ servers, '=' ∈ v.data)
    (hdist : (servers.map nameOf).Nodup)
    (hfresh : ∀ v ∈ servers, sessionExists st0 (nameOf v) = false) :
    (main true servers tmuxEnv input st0).state.sessions =
      st0.sessions ++ servers.map (fun v => cfgSession (nameOf v)) ∧
    (main true servers tmuxEnv input st0).state.sessions.length =
      st0.sessions.length + servers.length ∧
    ∀ v ∈ servers, ∃ s ∈ (main true servers tmuxEnv input st0).state.sessions,
      s.name = nameOf v ∧
      s.windows = [⟨"main", 2⟩, ⟨"monitoring", 1⟩] ∧
      s.windows.get? s.active = some ⟨"main", 2⟩ := by
  have hwf2 : ∀ v ∈ servers, (addrOf v).isSome = true :=
    fun v hv => addrOf_isSome_of_mem (hwf v hv)
  have hnc := createLoop_nocrash servers st0 hwf2
  have hstate := createLoop_fresh_distinct servers st0 hwf2 hdist hfresh
  have hmainstate : (main true servers tmuxEnv input st0).state =
      (createLoop st0 servers).1 := by
    rw [main_eq_of_nocrash st0 servers tmuxEnv input hnc]
  rw [hmainstate, hstate]
  refine ⟨rfl, by simp, ?_⟩
  intro v hv
  exact ⟨cfgSession (nameOf v),
    List.mem_append_right _ (List.mem_map_of_mem _ hv), rfl, rfl, rfl⟩

/-- C1 witness: the actual configured list against an empty table. -/
theorem claim_C1_witness :
    (main true SERVERS none "" ⟨[]⟩).state.sessions =
      [] ++ SERVERS.map (fun v => cfgSession (nameOf v)) :=
  (claim_C1_amended SERVERS none "" ⟨[]⟩ (by decide) (by decide) (by decide)).1

end TmuxScript
